import Mathlib

/-!
Shallow embedding of the SemanticLinterGHA action (`main.go`).

External library calls (`doublestar.Match`, `encoding/json` decoding, the
HTTP transport) are modelled as explicit function parameters; everything
else is translated directly from the Go source.
-/

set_option maxHeartbeats 1000000
set_option linter.unusedVariables false

/-! ### Go `strings` helpers -/

/-- Core of Go `strings.Replace(s, old, new, n)` on `List Char`: scans
left to right, replacing non-overlapping occurrences of `old` by `new`
while the remaining replacement budget `n` is non-zero (a negative `n`
never reaches zero, giving replace-all).  `fuel` is a structural bound on
the number of scanning steps; it is always instantiated with the length of
the scanned list, which suffices because every step consumes at least one
character.  (For `old = []` Go inserts between runes; the program only
ever replaces non-empty placeholders, and this model leaves `s` unchanged
in that never-used case.) -/
def replaceFuel (old new : List Char) : Nat → Int → List Char → List Char
  | 0, _, s => s
  | _ + 1, _, [] => []
  | fuel + 1, n, c :: rest =>
    if n ≠ 0 ∧ old ≠ [] ∧ old.isPrefixOf (c :: rest) then
      new ++ replaceFuel old new fuel (n - 1) (rest.drop (old.length - 1))
    else
      c :: replaceFuel old new fuel n rest

/-- Go `strings.Replace(s, old, new, n)`; `n < 0` means replace all. -/
def goReplace (s old new : String) (n : Int) : String :=
  ⟨replaceFuel old.data new.data s.data.length n s.data⟩

/-- Go `strings.HasPrefix`. -/
def goHasPre (s pre : String) : Bool := pre.data.isPrefixOf s.data

/-- Go `strings.HasSuffix`. -/
def goHasSuf (s suf : String) : Bool := suf.data.isSuffixOf s.data

/-- Go `strings.TrimPrefix(s, pre)`. -/
def goTrimPre (s pre : String) : String :=
  if goHasPre s pre then ⟨s.data.drop pre.data.length⟩ else s

/-- Go `strings.TrimSuffix(s, suf)`. -/
def goTrimSuf (s suf : String) : String :=
  if goHasSuf s suf then ⟨s.data.take (s.data.length - suf.data.length)⟩ else s

/-- Go `unicode.IsSpace` restricted to the ASCII range (the only
characters the analysed strings contain). -/
def isGoSpace (c : Char) : Bool :=
  c == ' ' || c == '\t' || c == '\n' || c == '\x0b' || c == '\x0c' || c == '\r'

/-- Go `strings.TrimSpace`. -/
def goTrimSpace (s : String) : String :=
  ⟨((s.data.dropWhile isGoSpace).reverse.dropWhile isGoSpace).reverse⟩


/-! ### Data model (from `main.go`) -/

/-- `Severity` from `main.go`: the error/warning issue-type label sets. -/
structure Severity where
  error : List String
  warning : List String
deriving DecidableEq, Repr

/-- The fields of `Config` from `main.go` that the analysed functions
read (`IncludedFiles`, `ExcludedFiles`, `AI.PromptTemplate`, `Severity`);
the per-provider sub-configurations are modelled separately below. -/
structure Config where
  includedFiles : List String
  excludedFiles : List String
  promptTemplate : String
  severity : Severity
deriving DecidableEq, Repr

/-- `ChangedFile` from `main.go`. -/
structure ChangedFile where
  filename : String
  patch : String
deriving DecidableEq, Repr

/-- `Issue` from `main.go`. -/
structure Issue where
  type : String
  message : String
  suggestion : String
deriving DecidableEq, Repr

/-- `AnalysisResult` from `main.go`. -/
structure AnalysisResult where
  issues : List Issue
deriving DecidableEq, Repr

/-- `FileAnalysisResult` from `main.go`. -/
structure FileAnalysisResult where
  filename : String
  issues : List Issue
deriving DecidableEq, Repr

/-! ### Provider wire formats (from `main.go`) -/

/-- `GeminiPart` from `main.go`. -/
structure GeminiPart where
  text : String
deriving DecidableEq, Repr

/-- `GeminiContent` from `main.go`. -/
structure GeminiContent where
  parts : List GeminiPart
deriving DecidableEq, Repr

/-- `GeminiRequest` from `main.go`. -/
structure GeminiRequest where
  contents : List GeminiContent
deriving DecidableEq, Repr

/-- The anonymous part struct of `GeminiResponse` in `main.go`. -/
structure GeminiRespPart where
  text : String
deriving DecidableEq, Repr

/-- The anonymous content struct of `GeminiResponse` in `main.go`. -/
structure GeminiRespContent where
  parts : List GeminiRespPart
deriving DecidableEq, Repr

/-- The anonymous candidate struct of `GeminiResponse` in `main.go`. -/
structure GeminiCandidate where
  content : GeminiRespContent
deriving DecidableEq, Repr

/-- `GeminiResponse` from `main.go`. -/
structure GeminiResponse where
  candidates : List GeminiCandidate
deriving DecidableEq, Repr

/-- `OpenAIMessage` from `main.go`. -/
structure OpenAIMessage where
  role : String
  content : String
deriving DecidableEq, Repr

/-- `OpenAIRequest` from `main.go`. -/
structure OpenAIRequest where
  model : String
  messages : List OpenAIMessage
deriving DecidableEq, Repr

/-- The anonymous message struct of `OpenAIResponse` in `main.go`. -/
structure OpenAIChoiceMessage where
  content : String
deriving DecidableEq, Repr

/-- The anonymous choice struct of `OpenAIResponse` in `main.go`. -/
structure OpenAIChoice where
  message : OpenAIChoiceMessage
deriving DecidableEq, Repr

/-- `OpenAIResponse` from `main.go`. -/
structure OpenAIResponse where
  choices : List OpenAIChoice
deriving DecidableEq, Repr

/-- `AnthropicMessage` from `main.go`. -/
structure AnthropicMessage where
  role : String
  content : String
deriving DecidableEq, Repr

/-- `AnthropicRequest` from `main.go`. -/
structure AnthropicRequest where
  model : String
  messages : List AnthropicMessage
  maxTokens : Nat
deriving DecidableEq, Repr

/-- The anonymous content-block struct of `AnthropicResponse` in `main.go`. -/
structure AnthropicBlock where
  text : String
deriving DecidableEq, Repr

/-- `AnthropicResponse` from `main.go`. -/
structure AnthropicResponse where
  content : List AnthropicBlock
deriving DecidableEq, Repr

/-- `GeminiConfig` from `main.go` (headers as an association list standing
for the Go string map). -/
structure GeminiConfig where
  apiEndpoint : String
  headers : List (String × String)
deriving DecidableEq, Repr

/-- `OpenAIConfig` from `main.go`. -/
structure OpenAIConfig where
  apiEndpoint : String
  model : String
  headers : List (String × String)
deriving DecidableEq, Repr

/-- `AnthropicConfig` from `main.go`. -/
structure AnthropicConfig where
  apiEndpoint : String
  model : String
  headers : List (String × String)
deriving DecidableEq, Repr

/-! ### HTTP transport model

An `Analyze` call builds one HTTP request and hands it to the transport
(`http.Client.Do` plus the body decoding done by `json.Decoder.Decode`).
The transport either fails at the network level or yields a status code,
the raw body bytes (read only on the error path), and the result of
decoding the body into the provider's typed response. -/

/-- The HTTP request an `Analyze` method builds: method, URL, headers,
and the marshalled (typed) request body. -/
structure HTTPRequest (β : Type) where
  method : String
  url : String
  headers : List (String × String)
  body : β
deriving DecidableEq

/-- Outcome of `http.Client.Do` plus response-body decoding. -/
inductive TransportResult (α : Type) where
  | netErr (msg : String)
  | got (status : Nat) (body : String) (decoded : Except String α)

/-- The stages at which an `Analyze` call can fail (each corresponds to
one `return nil, err` site in `main.go`). -/
inductive ProviderErr where
  | network (msg : String)
  | httpStatus (status : Nat) (body : String)
  | decode (msg : String)
  | noContent (msg : String)
  | parse (msg : String)
deriving DecidableEq, Repr

/-- The shared answer post-processing in all three `Analyze` methods:
`strings.TrimPrefix(s, "```json")`, then `strings.TrimSuffix(s, "```")`,
then `strings.TrimSpace`. -/
def cleanAnswer (s : String) : String :=
  goTrimSpace (goTrimSuf (goTrimPre s "```json") "```")

/-- A JSON-parse oracle standing for `json.Unmarshal` into `AnalysisResult`. -/
def ParseOracle : Type := String → Except String AnalysisResult

/-! ### The three `Analyze` methods (from `main.go`) -/

/-- The request `GeminiProvider.Analyze` builds: prompt wrapped in the
nested contents/parts structure, credential substituted into the endpoint
URL globally (`strings.Replace(..., -1)`), headers taken verbatim from the
configuration.  The unused `patch` parameter is kept from the Go signature. -/
def geminiBuildRequest (cfg : GeminiConfig) (patch prompt apiKey : String) :
    HTTPRequest GeminiRequest :=
  { method := "POST"
    url := goReplace cfg.apiEndpoint "{{AI_API_KEY}}" apiKey (-1)
    headers := cfg.headers
    body := { contents := [{ parts := [{ text := prompt }] }] } }

/-- The `len(Candidates) == 0 || len(Candidates[0].Content.Parts) == 0`
check and `Candidates[0].Content.Parts[0].Text` extraction in
`GeminiProvider.Analyze`. -/
def geminiAnswerText (r : GeminiResponse) : Except String String :=
  match r.candidates with
  | [] => .error "no content found in gemini response"
  | c :: _ =>
    match c.content.parts with
    | [] => .error "no content found in gemini response"
    | p :: _ => .ok p.text

/-- `GeminiProvider.Analyze` from `main.go`. -/
def geminiAnalyze (cfg : GeminiConfig) (parse : ParseOracle)
    (transport : HTTPRequest GeminiRequest → TransportResult GeminiResponse)
    (patch prompt apiKey : String) : Except ProviderErr AnalysisResult :=
  match transport (geminiBuildRequest cfg patch prompt apiKey) with
  | .netErr m => .error (.network m)
  | .got status body decoded =>
    if status ≠ 200 then .error (.httpStatus status body)
    else
      match decoded with
      | .error m => .error (.decode m)
      | .ok resp =>
        match geminiAnswerText resp with
        | .error m => .error (.noContent m)
        | .ok text =>
          match parse (cleanAnswer text) with
          | .error m => .error (.parse m)
          | .ok result => .ok result

/-- The request `OpenAIProvider.Analyze` builds: chat-style body, endpoint
taken verbatim, credential substituted globally into every header value
(`strings.Replace(value, "{{AI_API_KEY}}", apiKey, -1)`). -/
def openAIBuildRequest (cfg : OpenAIConfig) (patch prompt apiKey : String) :
    HTTPRequest OpenAIRequest :=
  { method := "POST"
    url := cfg.apiEndpoint
    headers := cfg.headers.map (fun kv => (kv.1, goReplace kv.2 "{{AI_API_KEY}}" apiKey (-1)))
    body := { model := cfg.model, messages := [{ role := "user", content := prompt }] } }

/-- The `len(Choices) == 0` check and `Choices[0].Message.Content`
extraction in `OpenAIProvider.Analyze`. -/
def openAIAnswerText (r : OpenAIResponse) : Except String String :=
  match r.choices with
  | [] => .error "no choices found in openai response"
  | c :: _ => .ok c.message.content

/-- `OpenAIProvider.Analyze` from `main.go`. -/
def openAIAnalyze (cfg : OpenAIConfig) (parse : ParseOracle)
    (transport : HTTPRequest OpenAIRequest → TransportResult OpenAIResponse)
    (patch prompt apiKey : String) : Except ProviderErr AnalysisResult :=
  match transport (openAIBuildRequest cfg patch prompt apiKey) with
  | .netErr m => .error (.network m)
  | .got status body decoded =>
    if status ≠ 200 then .error (.httpStatus status body)
    else
      match decoded with
      | .error m => .error (.decode m)
      | .ok resp =>
        match openAIAnswerText resp with
        | .error m => .error (.noContent m)
        | .ok text =>
          match parse (cleanAnswer text) with
          | .error m => .error (.parse m)
          | .ok result => .ok result

/-- The request `AnthropicProvider.Analyze` builds: chat-style body with
the fixed `MaxTokens: 4096` cap, endpoint taken verbatim, credential
substituted globally into every header value. -/
def anthropicBuildRequest (cfg : AnthropicConfig) (patch prompt apiKey : String) :
    HTTPRequest AnthropicRequest :=
  { method := "POST"
    url := cfg.apiEndpoint
    headers := cfg.headers.map (fun kv => (kv.1, goReplace kv.2 "{{AI_API_KEY}}" apiKey (-1)))
    body := { model := cfg.model
              messages := [{ role := "user", content := prompt }]
              maxTokens := 4096 } }

/-- The `len(Content) == 0` check and `Content[0].Text` extraction in
`AnthropicProvider.Analyze`. -/
def anthropicAnswerText (r : AnthropicResponse) : Except String String :=
  match r.content with
  | [] => .error "no content found in anthropic response"
  | b :: _ => .ok b.text

/-- `AnthropicProvider.Analyze` from `main.go`. -/
def anthropicAnalyze (cfg : AnthropicConfig) (parse : ParseOracle)
    (transport : HTTPRequest AnthropicRequest → TransportResult AnthropicResponse)
    (patch prompt apiKey : String) : Except ProviderErr AnalysisResult :=
  match transport (anthropicBuildRequest cfg patch prompt apiKey) with
  | .netErr m => .error (.network m)
  | .got status body decoded =>
    if status ≠ 200 then .error (.httpStatus status body)
    else
      match decoded with
      | .error m => .error (.decode m)
      | .ok resp =>
        match anthropicAnswerText resp with
        | .error m => .error (.noContent m)
        | .ok text =>
          match parse (cleanAnswer text) with
          | .error m => .error (.parse m)
          | .ok result => .ok result

/-! ### Filtering, orchestration, aggregation (from `main.go`) -/

/-- The type of `doublestar.Match` as the program uses it: a pattern and a
path give either a boolean match or a malformed-pattern error.  The actual
glob semantics live in the external `doublestar` library, so the matcher
is an explicit parameter of the embedded functions. -/
def MatchFn : Type := String → String → Except String Bool

/-- `matchAny` from `main.go`: first error aborts, first match wins. -/
def matchAny (m : MatchFn) (path : String) : List String → Except String Bool
  | [] => .ok false
  | p :: ps =>
    match m p path with
    | .error e => .error e
    | .ok true => .ok true
    | .ok false => matchAny m path ps

/-- `filterFiles` from `main.go`: per file, check the include patterns,
then the exclude patterns, keep the file when included and not excluded;
any pattern error aborts the whole call. -/
def filterFiles (m : MatchFn) (config : Config) : List ChangedFile → Except String (List ChangedFile)
  | [] => .ok []
  | file :: rest =>
    match matchAny m file.filename config.includedFiles with
    | .error e => .error e
    | .ok included =>
      match matchAny m file.filename config.excludedFiles with
      | .error e => .error e
      | .ok excluded =>
        match filterFiles m config rest with
        | .error e => .error e
        | .ok fs => .ok (if included && !excluded then file :: fs else fs)

/-- The type a provider's `Analyze` has once its configuration, parse
oracle and transport are fixed: `(patch, prompt, apiKey) ↦ result`. -/
def AnalyzeFn : Type := String → String → String → Except ProviderErr AnalysisResult

/-- `analyzePatch` from `main.go`: substitute the first occurrence of
`{rules}` and then the first occurrence of `{code}` in the template
(`strings.Replace(..., 1)`), then call the provider. -/
def analyzePatch (patch : String) (config : Config) (rules apiKey : String)
    (provider : AnalyzeFn) : Except ProviderErr AnalysisResult :=
  let prompt := goReplace config.promptTemplate "{rules}" rules 1
  let prompt := goReplace prompt "{code}" patch 1
  provider patch prompt apiKey

/-- The analysis loop in `main` (`main.go` lines 413–424): analyze each
filtered file; on error continue without appending, on success append a
`FileAnalysisResult` with the file's name and the returned issues.  The
per-file analysis call is abstracted as `g` (it is
`analyzePatch file.Patch config rules apiKey provider` in `main`). -/
def analysisLoop (g : ChangedFile → Except ProviderErr AnalysisResult) :
    List ChangedFile → List FileAnalysisResult
  | [] => []
  | file :: rest =>
    match g file with
    | .error _ => analysisLoop g rest
    | .ok analysis => { filename := file.filename, issues := analysis.issues } :: analysisLoop g rest

/-- The comment built by `postResults` in `main.go`: a `strings.Builder`
seeded with the top-level heading, then per file with at least one issue a
`### filename` subsection, then per issue a glyph/type/message line, an
optional suggestion line, and a blank line. -/
def buildComment (results : List FileAnalysisResult) (config : Config) : String :=
  results.foldl (fun comment result =>
    if result.issues.length > 0 then
      result.issues.foldl (fun c issue =>
        let severityIcon := if config.severity.error.any (fun e => issue.type == e) then "🔴" else "⚠️"
        let c := c ++ severityIcon ++ " **" ++ issue.type ++ "**: " ++ issue.message ++ "\n"
        let c := if issue.suggestion != "" then c ++ "> Suggestion: " ++ issue.suggestion ++ "\n" else c
        c ++ "\n")
        (comment ++ "### " ++ result.filename ++ "\n\n")
    else comment)
    "## Semantic Linting Results\n\n"

/-- `hasErrors` from `main.go`: triple loop with early `return true` when
some issue's type equals some configured error label. -/
def hasErrors (results : List FileAnalysisResult) (config : Config) : Bool :=
  results.any (fun result =>
    result.issues.any (fun issue =>
      config.severity.error.any (fun errorType => issue.type == errorType)))

/-- The tail of `main` (`main.go` lines 432–434): after a successful
`postResults`, exit with code 1 iff `hasErrors`, else fall through to
exit code 0. -/
def mainExitCode (results : List FileAnalysisResult) (config : Config) : Nat :=
  if hasErrors results config then 1 else 0

/-- Whether an `Analyze` outcome is the non-200-status error
(`"API request failed with status ..."` in `main.go`). -/
def isHttpStatusErr : Except ProviderErr AnalysisResult → Bool
  | .error (.httpStatus _ _) => true
  | _ => false

/-- Concatenation of a list of strings (used to state the report shape). -/
def concatList : List String → String
  | [] => ""
  | s :: rest => s ++ concatList rest

/-- The text `postResults` emits for a single issue: severity glyph
(error glyph iff the issue type is in the error set), bolded type,
message, optional suggestion line, blank line. -/
def issueStr (config : Config) (issue : Issue) : String :=
  (if config.severity.error.any (fun e => issue.type == e) then "🔴" else "⚠️") ++
    (" **" ++ (issue.type ++ ("**: " ++ (issue.message ++
      (if issue.suggestion != "" then "\n> Suggestion: " ++ (issue.suggestion ++ "\n\n")
       else "\n\n")))))

/-- The subsection `postResults` emits for a single file: `### filename`
heading followed by one `issueStr` block per issue. -/
def fileSectionStr (config : Config) (result : FileAnalysisResult) : String :=
  "### " ++ (result.filename ++ ("\n\n" ++ concatList (result.issues.map (issueStr config))))

/-! ### Theorems -/

/-- Lifting a total matcher into `matchAny` computes `List.any`. -/
theorem matchAny_lift (mt : String → String → Bool) (path : String) :
    ∀ pats : List String,
      matchAny (fun p s => .ok (mt p s)) path pats = .ok (pats.any (fun p => mt p path)) := by
  intro pats
  induction pats with
  | nil => rfl
  | cons p ps ih => cases h : mt p path <;> simp [matchAny, h, ih]

/-- Claim C2: with a total (never-failing) pattern matcher, `filterFiles`
keeps exactly the files whose name matches at least one include pattern
and no exclude pattern, in input order, and an empty include-pattern list
yields an empty result whatever the exclude patterns are. -/
theorem filterFiles_spec (mt : String → String → Bool) (config : Config)
    (files : List ChangedFile) :
    filterFiles (fun p s => .ok (mt p s)) config files
      = .ok (files.filter (fun f =>
          (config.includedFiles.any (fun p => mt p f.filename))
            && !(config.excludedFiles.any (fun p => mt p f.filename))))
    ∧ (config.includedFiles = [] →
        filterFiles (fun p s => .ok (mt p s)) config files = .ok []) := by
  have hA : filterFiles (fun p s => .ok (mt p s)) config files
      = .ok (files.filter (fun f =>
          (config.includedFiles.any (fun p => mt p f.filename))
            && !(config.excludedFiles.any (fun p => mt p f.filename)))) := by
    induction files with
    | nil => rfl
    | cons f rest ih =>
      by_cases h : (config.includedFiles.any (fun p => mt p f.filename))
          && !(config.excludedFiles.any (fun p => mt p f.filename))
      · simp [filterFiles, matchAny_lift, ih, List.filter_cons, h]
      · simp [filterFiles, matchAny_lift, ih, List.filter_cons, h]
  refine ⟨hA, fun h => ?_⟩
  rw [hA]
  simp [h]

/-- Claim C2 witness: an empty include list gives an empty result. -/
theorem filterFiles_spec_witness :
    filterFiles (fun p s => .ok (p == s))
        { includedFiles := [], excludedFiles := ["*.md"], promptTemplate := "",
          severity := { error := [], warning := [] } }
        [{ filename := "main.go", patch := "p" }] = .ok [] :=
  (filterFiles_spec (fun p s => p == s) _ _).2 rfl

/-- Claim C8 counterexample: a pattern on which the matcher fails (as
`doublestar.Match` does on the malformed pattern `[`) is present in the
include set, yet `filterFiles` succeeds, because with an empty file list
no pattern is ever evaluated. -/
theorem filterFiles_malformed_cex :
    (fun (p : String) (_ : String) =>
        if p == "[" then (Except.error "syntax error in pattern" : Except String Bool)
        else .ok false) "[" "main.go" = .error "syntax error in pattern"
    ∧ filterFiles
        (fun p _ => if p == "[" then .error "syntax error in pattern" else .ok false)
        { includedFiles := ["["], excludedFiles := [], promptTemplate := "",
          severity := { error := [], warning := [] } }
        [] = .ok [] :=
  ⟨rfl, rfl⟩

/-- Claim C8 (amended): a pattern-matching failure actually encountered
while evaluating a file aborts the whole `filterFiles` call with that
error (fail-fast, whether it arises on the include set, the exclude set,
or a later file); but a malformed pattern that is never evaluated — e.g.
with an empty file list, or shadowed by an earlier matching pattern — does
not cause a failure. -/
theorem filterFiles_failFast (m : MatchFn) (config : Config) (file : ChangedFile)
    (rest : List ChangedFile) (e : String) :
    (matchAny m file.filename config.includedFiles = .error e →
      filterFiles m config (file :: rest) = .error e)
    ∧ (∀ b, matchAny m file.filename config.includedFiles = .ok b →
        matchAny m file.filename config.excludedFiles = .error e →
        filterFiles m config (file :: rest) = .error e)
    ∧ (∀ b b', matchAny m file.filename config.includedFiles = .ok b →
        matchAny m file.filename config.excludedFiles = .ok b' →
        filterFiles m config rest = .error e →
        filterFiles m config (file :: rest) = .error e) := by
  refine ⟨fun h => ?_, fun b h h' => ?_, fun b b' h h' h'' => ?_⟩ <;>
    simp [filterFiles, h, *]

/-- Claim C8 witness: a malformed include pattern that is reached while
processing a file aborts the call with its error. -/
theorem filterFiles_failFast_witness :
    filterFiles
        (fun p _ => if p == "[" then .error "syntax error in pattern" else .ok false)
        { includedFiles := ["["], excludedFiles := [], promptTemplate := "",
          severity := { error := [], warning := [] } }
        [{ filename := "main.go", patch := "p" }] = .error "syntax error in pattern" :=
  (filterFiles_failFast _ _ _ _ _).1 rfl

/-- Claim C4: `hasErrors` is true iff some issue of some result has a type
in the configured error set; the post-`postResults` exit code is 1 exactly
when `hasErrors` is true; and an issue whose type is in neither the error
nor the warning set never changes `hasErrors`. -/
theorem hasErrors_spec (results : List FileAnalysisResult) (config : Config) :
    (hasErrors results config = true ↔
      ∃ r ∈ results, ∃ i ∈ r.issues, i.type ∈ config.severity.error)
    ∧ (mainExitCode results config = 1 ↔ hasErrors results config = true)
    ∧ (∀ fn i, i.type ∉ config.severity.error → i.type ∉ config.severity.warning →
        hasErrors (results ++ [{ filename := fn, issues := [i] }]) config
          = hasErrors results config) := by
  refine ⟨?_, ?_, ?_⟩
  · simp only [hasErrors, List.any_eq_true, beq_iff_eq]
    constructor
    · rintro ⟨r, hr, i, hi, e, he, rfl⟩
      exact ⟨r, hr, i, hi, he⟩
    · rintro ⟨r, hr, i, hi, he⟩
      exact ⟨r, hr, i, hi, i.type, he, rfl⟩
  · unfold mainExitCode
    by_cases h : hasErrors results config <;> simp [h]
  · intro fn i hE hW
    have hx : (config.severity.error.any (fun errorType => i.type == errorType)) = false := by
      rw [List.any_eq_false]
      intro e he
      simp only [beq_iff_eq]
      rintro rfl
      exact hE he
    simp [hasErrors, List.any_append, hx]

/-- Claim C4 witness: appending a file whose sole issue's type is in
neither severity set leaves `hasErrors` unchanged. -/
theorem hasErrors_spec_witness :
    hasErrors
        ([] ++ [{ filename := "f"
                  issues := [{ type := "info", message := "m", suggestion := "" }] }])
        { includedFiles := [], excludedFiles := [], promptTemplate := "",
          severity := { error := ["bug"], warning := ["style"] } }
      = hasErrors []
        { includedFiles := [], excludedFiles := [], promptTemplate := "",
          severity := { error := ["bug"], warning := ["style"] } } :=
  (hasErrors_spec [] _).2.2 "f" _ (by decide) (by decide)

/-- Claim C9: the analysis loop yields results whose filenames form an
order-preserving sublist of the filtered file list, and equals the
filter-map keeping exactly the files whose analysis succeeded, with their
returned issues — a failed file is absent, not present with empty issues,
and later files are still processed. -/
theorem analysisLoop_spec (g : ChangedFile → Except ProviderErr AnalysisResult)
    (files : List ChangedFile) :
    ((analysisLoop g files).map FileAnalysisResult.filename).Sublist
        (files.map ChangedFile.filename)
    ∧ analysisLoop g files = files.filterMap (fun file =>
        match g file with
        | .ok analysis => some { filename := file.filename, issues := analysis.issues }
        | .error _ => none) := by
  constructor
  · induction files with
    | nil => simp [analysisLoop]
    | cons f rest ih =>
      cases hg : g f with
      | error m =>
        simpa [analysisLoop, hg] using ih.trans (List.sublist_cons_self _ _)
      | ok a =>
        simpa [analysisLoop, hg] using ih.cons₂ f.filename
  · induction files with
    | nil => rfl
    | cons f rest ih =>
      cases hg : g f with
      | error m => simp [analysisLoop, hg, List.filterMap_cons, ih]
      | ok a => simp [analysisLoop, hg, List.filterMap_cons, ih]

/-- Claim C10: for every provider variant, the `patch` argument of
`Analyze` has no effect — two calls differing only in the patch build the
same HTTP request and, with the same transport, return the same result. -/
theorem analyze_patch_noninterference (gcfg : GeminiConfig) (ocfg : OpenAIConfig)
    (acfg : AnthropicConfig) (parse : ParseOracle)
    (trG : HTTPRequest GeminiRequest → TransportResult GeminiResponse)
    (trO : HTTPRequest OpenAIRequest → TransportResult OpenAIResponse)
    (trA : HTTPRequest AnthropicRequest → TransportResult AnthropicResponse)
    (prompt apiKey patch₁ patch₂ : String) :
    geminiBuildRequest gcfg patch₁ prompt apiKey = geminiBuildRequest gcfg patch₂ prompt apiKey
    ∧ openAIBuildRequest ocfg patch₁ prompt apiKey = openAIBuildRequest ocfg patch₂ prompt apiKey
    ∧ anthropicBuildRequest acfg patch₁ prompt apiKey
        = anthropicBuildRequest acfg patch₂ prompt apiKey
    ∧ geminiAnalyze gcfg parse trG patch₁ prompt apiKey
        = geminiAnalyze gcfg parse trG patch₂ prompt apiKey
    ∧ openAIAnalyze ocfg parse trO patch₁ prompt apiKey
        = openAIAnalyze ocfg parse trO patch₂ prompt apiKey
    ∧ anthropicAnalyze acfg parse trA patch₁ prompt apiKey
        = anthropicAnalyze acfg parse trA patch₂ prompt apiKey :=
  ⟨rfl, rfl, rfl, rfl, rfl, rfl⟩

/-- Claim C7 (amended): each `Analyze` fails with the http-status error
carrying the response body exactly when the received status differs from
200 (`http.StatusOK`) — not merely when it lies outside the 2xx range; any
other status, 2xx ones included, is rejected before decoding. -/
theorem analyze_httpStatus_spec (gcfg : GeminiConfig) (ocfg : OpenAIConfig)
    (acfg : AnthropicConfig) (parse : ParseOracle)
    (trG : HTTPRequest GeminiRequest → TransportResult GeminiResponse)
    (trO : HTTPRequest OpenAIRequest → TransportResult OpenAIResponse)
    (trA : HTTPRequest AnthropicRequest → TransportResult AnthropicResponse)
    (patch prompt apiKey : String) :
    (∀ status body dec, trG (geminiBuildRequest gcfg patch prompt apiKey) = .got status body dec →
      ((isHttpStatusErr (geminiAnalyze gcfg parse trG patch prompt apiKey) = true ↔ status ≠ 200)
        ∧ (status ≠ 200 →
            geminiAnalyze gcfg parse trG patch prompt apiKey = .error (.httpStatus status body))))
    ∧ (∀ status body dec, trO (openAIBuildRequest ocfg patch prompt apiKey) = .got status body dec →
      ((isHttpStatusErr (openAIAnalyze ocfg parse trO patch prompt apiKey) = true ↔ status ≠ 200)
        ∧ (status ≠ 200 →
            openAIAnalyze ocfg parse trO patch prompt apiKey = .error (.httpStatus status body))))
    ∧ (∀ status body dec, trA (anthropicBuildRequest acfg patch prompt apiKey) = .got status body dec →
      ((isHttpStatusErr (anthropicAnalyze acfg parse trA patch prompt apiKey) = true ↔ status ≠ 200)
        ∧ (status ≠ 200 →
            anthropicAnalyze acfg parse trA patch prompt apiKey
              = .error (.httpStatus status body)))) := by
  refine ⟨fun status body dec htr => ⟨?_, fun hne => ?_⟩,
         fun status body dec htr => ⟨?_, fun hne => ?_⟩,
         fun status body dec htr => ⟨?_, fun hne => ?_⟩⟩
  · by_cases h : status = 200
    · subst h
      rcases dec with m | resp
      · simp [geminiAnalyze, htr, isHttpStatusErr]
      · rcases hA : geminiAnswerText resp with m | text
        · simp [geminiAnalyze, htr, hA, isHttpStatusErr]
        · rcases hp : parse (cleanAnswer text) with m | r <;>
            simp [geminiAnalyze, htr, hA, hp, isHttpStatusErr]
    · simp [geminiAnalyze, htr, h, isHttpStatusErr]
  · simp [geminiAnalyze, htr, hne]
  · by_cases h : status = 200
    · subst h
      rcases dec with m | resp
      · simp [openAIAnalyze, htr, isHttpStatusErr]
      · rcases hA : openAIAnswerText resp with m | text
        · simp [openAIAnalyze, htr, hA, isHttpStatusErr]
        · rcases hp : parse (cleanAnswer text) with m | r <;>
            simp [openAIAnalyze, htr, hA, hp, isHttpStatusErr]
    · simp [openAIAnalyze, htr, h, isHttpStatusErr]
  · simp [openAIAnalyze, htr, hne]
  · by_cases h : status = 200
    · subst h
      rcases dec with m | resp
      · simp [anthropicAnalyze, htr, isHttpStatusErr]
      · rcases hA : anthropicAnswerText resp with m | text
        · simp [anthropicAnalyze, htr, hA, isHttpStatusErr]
        · rcases hp : parse (cleanAnswer text) with m | r <;>
            simp [anthropicAnalyze, htr, hA, hp, isHttpStatusErr]
    · simp [anthropicAnalyze, htr, h, isHttpStatusErr]
  · simp [anthropicAnalyze, htr, hne]

/-- Claim C7 witness: a 500 response makes `Analyze` fail with the
http-status error carrying the body. -/
theorem analyze_httpStatus_witness :
    geminiAnalyze { apiEndpoint := "u", headers := [] } (fun _ => .error "unused")
        (fun _ => .got 500 "boom" (.error "not decoded")) "p" "q" "k"
      = .error (.httpStatus 500 "boom") :=
  ((analyze_httpStatus_spec { apiEndpoint := "u", headers := [] }
      { apiEndpoint := "u", model := "m", headers := [] }
      { apiEndpoint := "u", model := "m", headers := [] }
      (fun _ => .error "unused") (fun _ => .got 500 "boom" (.error "not decoded"))
      (fun _ => .netErr "off") (fun _ => .netErr "off") "p" "q" "k").1
    500 "boom" (.error "not decoded") rfl).2 (by decide)

/-- Claim C7 counterexample: status 201 is a 2xx success status, the
payload decodes fine, yet `Analyze` fails with the http-status error —
the code accepts exactly status 200, not the whole 2xx range. -/
theorem analyze_httpStatus_cex :
    geminiAnalyze { apiEndpoint := "u", headers := [] } (fun _ => .ok { issues := [] })
        (fun _ => .got 201 "created"
          (.ok { candidates := [{ content := { parts := [{ text := "t" }] } }] }))
        "p" "q" "k"
      = .error (.httpStatus 201 "created")
    ∧ 200 ≤ 201 ∧ 201 < 300 :=
  ⟨rfl, by decide, by decide⟩

/-- Claim C1: protocol transparency — if each backend's transport returns
a 200 payload that decodes, the wire-format-specific answer texts agree,
and that shared text parses, then all three `Analyze` variants return the
very same `AnalysisResult`; no backend-specific field survives. -/
theorem provider_transparency (gcfg : GeminiConfig) (ocfg : OpenAIConfig)
    (acfg : AnthropicConfig) (parse : ParseOracle)
    (trG : HTTPRequest GeminiRequest → TransportResult GeminiResponse)
    (trO : HTTPRequest OpenAIRequest → TransportResult OpenAIResponse)
    (trA : HTTPRequest AnthropicRequest → TransportResult AnthropicResponse)
    (patch prompt apiKey gBody oBody aBody text : String)
    (gr : GeminiResponse) (orsp : OpenAIResponse) (arsp : AnthropicResponse)
    (res : AnalysisResult)
    (hg : trG (geminiBuildRequest gcfg patch prompt apiKey) = .got 200 gBody (.ok gr))
    (ho : trO (openAIBuildRequest ocfg patch prompt apiKey) = .got 200 oBody (.ok orsp))
    (ha : trA (anthropicBuildRequest acfg patch prompt apiKey) = .got 200 aBody (.ok arsp))
    (hgt : geminiAnswerText gr = .ok text)
    (hot : openAIAnswerText orsp = .ok text)
    (hat : anthropicAnswerText arsp = .ok text)
    (hp : parse (cleanAnswer text) = .ok res) :
    geminiAnalyze gcfg parse trG patch prompt apiKey = .ok res
    ∧ openAIAnalyze ocfg parse trO patch prompt apiKey = .ok res
    ∧ anthropicAnalyze acfg parse trA patch prompt apiKey = .ok res := by
  refine ⟨?_, ?_, ?_⟩
  · simp [geminiAnalyze, hg, hgt, hp]
  · simp [openAIAnalyze, ho, hot, hp]
  · simp [anthropicAnalyze, ha, hat, hp]

/-- Claim C1 witness: one canned answer text routed through all three
wire formats yields the same result. -/
theorem provider_transparency_witness :
    geminiAnalyze { apiEndpoint := "u", headers := [] } (fun _ => .ok { issues := [] })
        (fun _ => .got 200 ""
          (.ok { candidates := [{ content := { parts := [{ text := "t" }] } }] }))
        "p" "q" "k" = .ok { issues := [] }
    ∧ openAIAnalyze { apiEndpoint := "u", model := "m", headers := [] }
        (fun _ => .ok { issues := [] })
        (fun _ => .got 200 "" (.ok { choices := [{ message := { content := "t" } }] }))
        "p" "q" "k" = .ok { issues := [] }
    ∧ anthropicAnalyze { apiEndpoint := "u", model := "m", headers := [] }
        (fun _ => .ok { issues := [] })
        (fun _ => .got 200 "" (.ok { content := [{ text := "t" }] }))
        "p" "q" "k" = .ok { issues := [] } :=
  provider_transparency _ _ _ _ _ _ _ "p" "q" "k" "" "" "" "t" _ _ _ { issues := [] }
    rfl rfl rfl rfl rfl rfl rfl

/-- Claim C3: on every success path the extracted answer text is
processed by stripping a leading three-backtick-json fence, stripping a
trailing three-backtick fence, trimming whitespace and JSON-parsing it; a
parse failure is returned to the caller as the parse-stage error, and the
canned fenced text with an empty issue array cleans to the bare JSON
object and yields an empty-issue result. -/
theorem fence_processing_spec (gcfg : GeminiConfig) (ocfg : OpenAIConfig)
    (acfg : AnthropicConfig) (parse : ParseOracle)
    (trG : HTTPRequest GeminiRequest → TransportResult GeminiResponse)
    (trO : HTTPRequest OpenAIRequest → TransportResult OpenAIResponse)
    (trA : HTTPRequest AnthropicRequest → TransportResult AnthropicResponse)
    (patch prompt apiKey : String) :
    (∀ body gr text, trG (geminiBuildRequest gcfg patch prompt apiKey) = .got 200 body (.ok gr) →
      geminiAnswerText gr = .ok text →
      geminiAnalyze gcfg parse trG patch prompt apiKey
        = (match parse (goTrimSpace (goTrimSuf (goTrimPre text "```json") "```")) with
           | .ok r => (.ok r : Except ProviderErr AnalysisResult)
           | .error m => .error (.parse m)))
    ∧ (∀ body orsp text,
        trO (openAIBuildRequest ocfg patch prompt apiKey) = .got 200 body (.ok orsp) →
        openAIAnswerText orsp = .ok text →
        openAIAnalyze ocfg parse trO patch prompt apiKey
          = (match parse (goTrimSpace (goTrimSuf (goTrimPre text "```json") "```")) with
             | .ok r => (.ok r : Except ProviderErr AnalysisResult)
             | .error m => .error (.parse m)))
    ∧ (∀ body arsp text,
        trA (anthropicBuildRequest acfg patch prompt apiKey) = .got 200 body (.ok arsp) →
        anthropicAnswerText arsp = .ok text →
        anthropicAnalyze acfg parse trA patch prompt apiKey
          = (match parse (goTrimSpace (goTrimSuf (goTrimPre text "```json") "```")) with
             | .ok r => (.ok r : Except ProviderErr AnalysisResult)
             | .error m => .error (.parse m)))
    ∧ cleanAnswer "```json\n\x7b\"issues\":[]\x7d\n```" = "\x7b\"issues\":[]\x7d"
    ∧ (parse "\x7b\"issues\":[]\x7d" = .ok { issues := [] } →
        ∀ body gr, trG (geminiBuildRequest gcfg patch prompt apiKey) = .got 200 body (.ok gr) →
        geminiAnswerText gr = .ok "```json\n\x7b\"issues\":[]\x7d\n```" →
        geminiAnalyze gcfg parse trG patch prompt apiKey = .ok { issues := [] }) := by
  refine ⟨?_, ?_, ?_, by decide, ?_⟩
  · intro body gr text htr hA
    rcases hp : parse (cleanAnswer text) with m | r <;>
      (unfold cleanAnswer at hp; simp [geminiAnalyze, htr, hA, cleanAnswer, hp])
  · intro body orsp text htr hA
    rcases hp : parse (cleanAnswer text) with m | r <;>
      (unfold cleanAnswer at hp; simp [openAIAnalyze, htr, hA, cleanAnswer, hp])
  · intro body arsp text htr hA
    rcases hp : parse (cleanAnswer text) with m | r <;>
      (unfold cleanAnswer at hp; simp [anthropicAnalyze, htr, hA, cleanAnswer, hp])
  · intro hpe body gr htr hA
    have hc : cleanAnswer "```json\n\x7b\"issues\":[]\x7d\n```" = "\x7b\"issues\":[]\x7d" := by
      decide
    simp [geminiAnalyze, htr, hA, hc, hpe]

/-- Claim C3 witness: the canned fenced empty-issue payload, under a parse
oracle that accepts exactly the bare JSON object, yields the empty result. -/
theorem fence_processing_witness :
    geminiAnalyze { apiEndpoint := "u", headers := [] }
        (fun s => if s == "\x7b\"issues\":[]\x7d" then .ok { issues := [] }
                  else .error "invalid json")
        (fun _ => .got 200 ""
          (.ok { candidates := [{ content := { parts :=
            [{ text := "```json\n\x7b\"issues\":[]\x7d\n```" }] } }] }))
        "p" "q" "k" = .ok { issues := [] } :=
  (fence_processing_spec { apiEndpoint := "u", headers := [] }
      { apiEndpoint := "u", model := "m", headers := [] }
      { apiEndpoint := "u", model := "m", headers := [] }
      (fun s => if s == "\x7b\"issues\":[]\x7d" then .ok { issues := [] }
                else .error "invalid json")
      (fun _ => .got 200 ""
        (.ok { candidates := [{ content := { parts :=
          [{ text := "```json\n\x7b\"issues\":[]\x7d\n```" }] } }] }))
      (fun _ => .netErr "off") (fun _ => .netErr "off")
      "p" "q" "k").2.2.2.2 (by simp) "" _ rfl rfl

/-- The issue-level builder loop of `postResults` appends one `issueStr`
block per issue. -/
theorem buildComment_inner (config : Config) (issues : List Issue) :
    ∀ init : String,
      issues.foldl (fun c issue =>
        let severityIcon := if config.severity.error.any (fun e => issue.type == e) then "🔴" else "⚠️"
        let c := c ++ severityIcon ++ " **" ++ issue.type ++ "**: " ++ issue.message ++ "\n"
        let c := if issue.suggestion != "" then c ++ "> Suggestion: " ++ issue.suggestion ++ "\n" else c
        c ++ "\n") init
      = init ++ concatList (issues.map (issueStr config)) := by
  induction issues with
  | nil => intro init; simp [concatList]
  | cons i l ih =>
    intro init
    rw [List.foldl_cons, ih]
    by_cases hs : (i.suggestion != "") = true <;>
      simp [issueStr, hs, concatList, String.append_assoc]

/-- The file-level builder loop of `postResults` appends one
`fileSectionStr` subsection per file that has at least one issue. -/
theorem buildComment_outer (config : Config) (results : List FileAnalysisResult) :
    ∀ init : String,
      results.foldl (fun comment result =>
        if result.issues.length > 0 then
          result.issues.foldl (fun c issue =>
            let severityIcon := if config.severity.error.any (fun e => issue.type == e) then "🔴" else "⚠️"
            let c := c ++ severityIcon ++ " **" ++ issue.type ++ "**: " ++ issue.message ++ "\n"
            let c := if issue.suggestion != "" then c ++ "> Suggestion: " ++ issue.suggestion ++ "\n" else c
            c ++ "\n")
            (comment ++ "### " ++ result.filename ++ "\n\n")
        else comment) init
      = init ++ concatList
          ((results.filter (fun r => r.issues.length > 0)).map (fileSectionStr config)) := by
  induction results with
  | nil => intro init; simp [concatList]
  | cons r l ih =>
    intro init
    rw [List.foldl_cons]
    by_cases hr : r.issues.length > 0
    · rw [if_pos hr, buildComment_inner, ih, List.filter_cons, if_pos (by simpa using hr)]
      simp [fileSectionStr, concatList, String.append_assoc]
    · rw [if_neg hr, ih, List.filter_cons, if_neg (by simpa using hr)]

/-- Claim C5: the posted report is the top-level heading followed by one
subsection per file with at least one issue (zero-issue files produce no
subsection), each subsection being the filename heading followed by one
glyph/type/message line per issue with an indented suggestion line exactly
when the suggestion is non-empty; if every file has zero issues the report
is the heading alone. -/
theorem buildComment_spec (results : List FileAnalysisResult) (config : Config) :
    buildComment results config
      = "## Semantic Linting Results\n\n" ++ concatList
          ((results.filter (fun r => r.issues.length > 0)).map (fileSectionStr config))
    ∧ ((∀ r ∈ results, r.issues = []) →
        buildComment results config = "## Semantic Linting Results\n\n") := by
  have hA : buildComment results config
      = "## Semantic Linting Results\n\n" ++ concatList
          ((results.filter (fun r => r.issues.length > 0)).map (fileSectionStr config)) := by
    unfold buildComment
    exact buildComment_outer config results _
  refine ⟨hA, fun h => ?_⟩
  rw [hA]
  have hnil : results.filter (fun r => r.issues.length > 0) = [] := by
    rw [List.filter_eq_nil_iff]
    intro r hr
    simp [h r hr]
  rw [hnil]
  simp [concatList]

/-- Claim C5 witness: when every file has zero issues, the report is only
the heading. -/
theorem buildComment_spec_witness :
    buildComment [{ filename := "a.go", issues := [] }]
        { includedFiles := [], excludedFiles := [], promptTemplate := "",
          severity := { error := ["bug"], warning := ["style"] } }
      = "## Semantic Linting Results\n\n" :=
  (buildComment_spec [{ filename := "a.go", issues := [] }] _).2 (by decide)

/-- With a zero replacement budget, `replaceFuel` changes nothing
(Go `strings.Replace` with `n = 0`). -/
theorem replaceFuel_zero (old new : List Char) :
    ∀ (fuel : Nat) (s : List Char), replaceFuel old new fuel 0 s = s := by
  intro fuel
  induction fuel with
  | zero => intro s; rfl
  | succ f ih =>
    intro s
    cases s with
    | nil => rfl
    | cons c rest => simp [replaceFuel, ih]

/-- If the pattern occurs nowhere in the scanned list, `replaceFuel`
changes nothing, whatever the fuel and budget. -/
theorem replaceFuel_no_occur (old new : List Char) :
    ∀ (fuel : Nat) (n : Int) (s : List Char), ¬ old <:+: s →
      replaceFuel old new fuel n s = s := by
  intro fuel
  induction fuel with
  | zero => intro n s h; rfl
  | succ f ih =>
    intro n s h
    cases s with
    | nil => rfl
    | cons c rest =>
      have hpre : ¬ old.isPrefixOf (c :: rest) = true := by
        rw [List.isPrefixOf_iff_prefix]
        intro hp
        exact h hp.isInfix
      have hrest : ¬ old <:+: rest := fun hi => h (List.infix_cons hi)
      simp only [replaceFuel]
      rw [if_neg (fun hcond => hpre hcond.2.2), ih n rest hrest]

/-- `replaceFuel` does not depend on the fuel as long as the fuel is at
least the length of the scanned list. -/
theorem replaceFuel_fuel_le (old new : List Char) :
    ∀ (fuel : Nat) (n : Int) (s : List Char), s.length ≤ fuel →
      replaceFuel old new fuel n s = replaceFuel old new s.length n s := by
  intro fuel
  induction fuel using Nat.strong_induction_on with
  | _ fuel ih =>
    intro n s hle
    cases fuel with
    | zero =>
      cases s with
      | nil => rfl
      | cons c rest => simp at hle
    | succ f =>
      cases s with
      | nil => rfl
      | cons c rest =>
        have hr : rest.length ≤ f := Nat.le_of_succ_le_succ (by simpa using hle)
        by_cases hc : n ≠ 0 ∧ old ≠ [] ∧ old.isPrefixOf (c :: rest) = true
        · simp only [replaceFuel, List.length_cons]
          rw [if_pos hc, if_pos hc]
          congr 1
          have hd : (rest.drop (old.length - 1)).length ≤ rest.length := by
            simp [List.length_drop]
          rw [ih f (Nat.lt_succ_self f) (n - 1) _ (le_trans hd hr),
              ih rest.length (Nat.lt_succ_of_le hr) (n - 1) _ hd]
        · simp only [replaceFuel, List.length_cons]
          rw [if_neg hc, if_neg hc]
          rw [ih f (Nat.lt_succ_self f) n rest hr]

/-- If the pattern does not occur in `u ++ old.dropLast` and `u` is
non-empty, the pattern is not a prefix of `u ++ (old ++ b)` (any prefix
match would lie strictly before the position of the shown occurrence and
hence inside `u ++ old.dropLast`). -/
theorem not_prefix_of_boundary (old u b : List Char) (hne : old ≠ [])
    (hni : ¬ old <:+: (u ++ old.dropLast)) (hu : u ≠ []) :
    ¬ old <+: (u ++ (old ++ b)) := by
  intro h
  have hlen : old.length ≤ (u ++ old.dropLast).length := by
    rw [List.length_append, List.length_dropLast]
    have h1 : 1 ≤ u.length := List.length_pos.mpr hu
    have h2 : 1 ≤ old.length := List.length_pos.mpr hne
    omega
  have heq : u ++ (old ++ b) = (u ++ old.dropLast) ++ (old.getLast hne :: b) := by
    rw [List.append_assoc]
    congr 1
    conv_lhs => rw [← List.dropLast_append_getLast hne]
    rw [List.append_assoc, List.singleton_append]
  rw [heq] at h
  have htake := List.prefix_iff_eq_take.mp h
  rw [List.take_append_eq_append_take, Nat.sub_eq_zero_of_le hlen, List.take_zero,
      List.append_nil] at htake
  have hp := List.take_prefix old.length (u ++ old.dropLast)
  rw [← htake] at hp
  exact hni hp.isInfix

/-- Scanning `a ++ (old ++ b)` with a non-zero budget and no earlier
occurrence replaces the shown occurrence and continues after it. -/
theorem replaceFuel_first (old new : List Char) (hne : old ≠ []) :
    ∀ (a b : List Char) (n : Int) (fuel : Nat), n ≠ 0 →
      (a ++ (old ++ b)).length ≤ fuel →
      ¬ old <:+: (a ++ old.dropLast) →
      replaceFuel old new fuel n (a ++ (old ++ b))
        = a ++ (new ++ replaceFuel old new b.length (n - 1) b) := by
  intro a
  induction a with
  | nil =>
    intro b n fuel hn hfuel hni
    cases hold : old with
    | nil => exact absurd hold hne
    | cons o os =>
      subst hold
      cases fuel with
      | zero => simp at hfuel
      | succ f =>
        have hb : b.length ≤ f := by
          simp [List.length_append] at hfuel
          omega
        have hs : ([] : List Char) ++ ((o :: os) ++ b) = o :: (os ++ b) := by simp
        rw [hs]
        show replaceFuel (o :: os) new (f + 1) n (o :: (os ++ b))
            = [] ++ (new ++ replaceFuel (o :: os) new b.length (n - 1) b)
        have hcond : n ≠ 0 ∧ (o :: os) ≠ [] ∧ (o :: os).isPrefixOf (o :: (os ++ b)) = true :=
          ⟨hn, List.cons_ne_nil o os,
            List.isPrefixOf_iff_prefix.mpr (List.prefix_append (o :: os) b)⟩
        simp only [replaceFuel]
        rw [if_pos hcond]
        have hdrop : (os ++ b).drop ((o :: os).length - 1) = b := by
          simp only [List.length_cons, Nat.succ_sub_one]
          exact List.drop_left os b
        rw [hdrop, replaceFuel_fuel_le (o :: os) new f (n - 1) b hb]
        rfl
  | cons c a' ih =>
    intro b n fuel hn hfuel hni
    cases fuel with
    | zero => simp at hfuel
    | succ f =>
      have hpre : ¬ old.isPrefixOf (c :: (a' ++ (old ++ b))) = true := by
        rw [List.isPrefixOf_iff_prefix]
        have hnp := not_prefix_of_boundary old (c :: a') b hne (by simpa using hni) (by simp)
        intro hp
        exact hnp (by simpa using hp)
      have hni' : ¬ old <:+: (a' ++ old.dropLast) := by
        intro hi
        exact hni (List.infix_cons hi)
      have hf : (a' ++ (old ++ b)).length ≤ f := by
        simp [List.length_append] at hfuel ⊢
        omega
      have hs : (c :: a') ++ (old ++ b) = c :: (a' ++ (old ++ b)) := rfl
      rw [hs]
      show replaceFuel old new (f + 1) n (c :: (a' ++ (old ++ b)))
          = (c :: a') ++ (new ++ replaceFuel old new b.length (n - 1) b)
      simp only [replaceFuel]
      rw [if_neg (fun hcond => hpre hcond.2.2), ih b n f hn hf hni']
      rfl

/-- `strings.Replace` is the identity when the pattern does not occur. -/
theorem goReplace_absent (s old new : String) (n : Int)
    (h : ¬ old.data <:+: s.data) : goReplace s old new n = s :=
  String.ext (replaceFuel_no_occur old.data new.data s.data.length n s.data h)

/-- `strings.Replace(s, old, new, 1)` replaces exactly the first
occurrence: everything after it — including further occurrences of the
pattern — is kept verbatim. -/
theorem goReplace_one (a old b new : String) (hne : old.data ≠ [])
    (hni : ¬ old.data <:+: (a.data ++ old.data.dropLast)) :
    goReplace (a ++ old ++ b) old new 1 = a ++ new ++ b := by
  apply String.ext
  show replaceFuel old.data new.data (a ++ old ++ b).data.length 1 (a ++ old ++ b).data
      = (a ++ new ++ b).data
  have hdata : (a ++ old ++ b).data = a.data ++ (old.data ++ b.data) := by
    simp [List.append_assoc]
  rw [hdata,
    replaceFuel_first old.data new.data hne a.data b.data 1 _ (by decide) (le_refl _) hni]
  have h0 : (1 : Int) - 1 = 0 := rfl
  rw [h0, replaceFuel_zero]
  simp [List.append_assoc]

/-- `strings.Replace(s, old, new, -1)` replaces every occurrence: both
shown occurrences are substituted. -/
theorem goReplace_all_two (v1 old v2 v3 new : String) (hne : old.data ≠ [])
    (h1 : ¬ old.data <:+: (v1.data ++ old.data.dropLast))
    (h2 : ¬ old.data <:+: (v2.data ++ old.data.dropLast))
    (h3 : ¬ old.data <:+: v3.data) :
    goReplace (v1 ++ old ++ v2 ++ old ++ v3) old new (-1)
      = v1 ++ new ++ v2 ++ new ++ v3 := by
  apply String.ext
  show replaceFuel old.data new.data (v1 ++ old ++ v2 ++ old ++ v3).data.length (-1)
      (v1 ++ old ++ v2 ++ old ++ v3).data = (v1 ++ new ++ v2 ++ new ++ v3).data
  have hdata : (v1 ++ old ++ v2 ++ old ++ v3).data
      = v1.data ++ (old.data ++ (v2.data ++ (old.data ++ v3.data))) := by
    simp [List.append_assoc]
  rw [hdata,
    replaceFuel_first old.data new.data hne v1.data (v2.data ++ (old.data ++ v3.data))
      (-1) _ (by decide) (le_refl _) h1,
    replaceFuel_first old.data new.data hne v2.data v3.data (-1 - 1) _ (by decide)
      (le_refl _) h2,
    replaceFuel_no_occur old.data new.data v3.data.length (-1 - 1 - 1) v3.data h3]
  simp [List.append_assoc]

/-- Claim C6: prompt building replaces only the first occurrence of
`{rules}` and only the first occurrence of `{code}` in the template — a
second `{code}` (or `{rules}`) occurrence survives verbatim — while the
credential placeholder is replaced globally: both shown occurrences are
substituted in an OpenAI header value, in an Anthropic header value, and
in the Gemini endpoint URL. -/
theorem analyzePatch_substitution_spec (provider : AnalyzeFn)
    (rules patch apiKey prompt : String) (t1 t2 t3 v1 v2 v3 hk ep mdl : String)
    (iFiles eFiles : List String) (sev : Severity) (ghdrs : List (String × String)) :
    (¬ "{rules}".data <:+: (t1 ++ "{code}" ++ t2 ++ "{code}" ++ t3).data →
     ¬ "{code}".data <:+: (t1.data ++ "{code}".data.dropLast) →
      analyzePatch patch
          { includedFiles := iFiles, excludedFiles := eFiles,
            promptTemplate := t1 ++ "{code}" ++ t2 ++ "{code}" ++ t3, severity := sev }
          rules apiKey provider
        = provider patch (t1 ++ patch ++ t2 ++ "{code}" ++ t3) apiKey)
    ∧ (¬ "{rules}".data <:+: (t1.data ++ "{rules}".data.dropLast) →
       ¬ "{code}".data <:+: (t1 ++ rules ++ t2 ++ "{rules}" ++ t3).data →
      analyzePatch patch
          { includedFiles := iFiles, excludedFiles := eFiles,
            promptTemplate := t1 ++ "{rules}" ++ t2 ++ "{rules}" ++ t3, severity := sev }
          rules apiKey provider
        = provider patch (t1 ++ rules ++ t2 ++ "{rules}" ++ t3) apiKey)
    ∧ (¬ "{{AI_API_KEY}}".data <:+: (v1.data ++ "{{AI_API_KEY}}".data.dropLast) →
       ¬ "{{AI_API_KEY}}".data <:+: (v2.data ++ "{{AI_API_KEY}}".data.dropLast) →
       ¬ "{{AI_API_KEY}}".data <:+: v3.data →
      (openAIBuildRequest
          { apiEndpoint := ep, model := mdl,
            headers := [(hk, v1 ++ "{{AI_API_KEY}}" ++ v2 ++ "{{AI_API_KEY}}" ++ v3)] }
          patch prompt apiKey).headers
        = [(hk, v1 ++ apiKey ++ v2 ++ apiKey ++ v3)])
    ∧ (¬ "{{AI_API_KEY}}".data <:+: (v1.data ++ "{{AI_API_KEY}}".data.dropLast) →
       ¬ "{{AI_API_KEY}}".data <:+: (v2.data ++ "{{AI_API_KEY}}".data.dropLast) →
       ¬ "{{AI_API_KEY}}".data <:+: v3.data →
      (anthropicBuildRequest
          { apiEndpoint := ep, model := mdl,
            headers := [(hk, v1 ++ "{{AI_API_KEY}}" ++ v2 ++ "{{AI_API_KEY}}" ++ v3)] }
          patch prompt apiKey).headers
        = [(hk, v1 ++ apiKey ++ v2 ++ apiKey ++ v3)])
    ∧ (¬ "{{AI_API_KEY}}".data <:+: (v1.data ++ "{{AI_API_KEY}}".data.dropLast) →
       ¬ "{{AI_API_KEY}}".data <:+: (v2.data ++ "{{AI_API_KEY}}".data.dropLast) →
       ¬ "{{AI_API_KEY}}".data <:+: v3.data →
      (geminiBuildRequest
          { apiEndpoint := v1 ++ "{{AI_API_KEY}}" ++ v2 ++ "{{AI_API_KEY}}" ++ v3,
            headers := ghdrs }
          patch prompt apiKey).url
        = v1 ++ apiKey ++ v2 ++ apiKey ++ v3) := by
  refine ⟨fun hr hc => ?_, fun hr hc => ?_, fun h1 h2 h3 => ?_, fun h1 h2 h3 => ?_,
         fun h1 h2 h3 => ?_⟩
  · show provider patch
        (goReplace (goReplace (t1 ++ "{code}" ++ t2 ++ "{code}" ++ t3) "{rules}" rules 1)
          "{code}" patch 1) apiKey = _
    rw [goReplace_absent _ _ _ _ hr]
    have htmpl : t1 ++ "{code}" ++ t2 ++ "{code}" ++ t3
        = t1 ++ "{code}" ++ (t2 ++ "{code}" ++ t3) := String.ext (by simp)
    rw [htmpl, goReplace_one t1 "{code}" (t2 ++ "{code}" ++ t3) patch (by decide) hc]
    have hout : t1 ++ patch ++ (t2 ++ "{code}" ++ t3)
        = t1 ++ patch ++ t2 ++ "{code}" ++ t3 := String.ext (by simp)
    rw [hout]
  · show provider patch
        (goReplace (goReplace (t1 ++ "{rules}" ++ t2 ++ "{rules}" ++ t3) "{rules}" rules 1)
          "{code}" patch 1) apiKey = _
    have htmpl : t1 ++ "{rules}" ++ t2 ++ "{rules}" ++ t3
        = t1 ++ "{rules}" ++ (t2 ++ "{rules}" ++ t3) := String.ext (by simp)
    rw [htmpl, goReplace_one t1 "{rules}" (t2 ++ "{rules}" ++ t3) rules (by decide) hr]
    have hmid : t1 ++ rules ++ (t2 ++ "{rules}" ++ t3)
        = t1 ++ rules ++ t2 ++ "{rules}" ++ t3 := String.ext (by simp)
    rw [hmid, goReplace_absent _ _ _ _ hc]
  · simp only [openAIBuildRequest, List.map]
    rw [goReplace_all_two v1 "{{AI_API_KEY}}" v2 v3 apiKey (by decide) h1 h2 h3]
  · simp only [anthropicBuildRequest, List.map]
    rw [goReplace_all_two v1 "{{AI_API_KEY}}" v2 v3 apiKey (by decide) h1 h2 h3]
  · simp only [geminiBuildRequest]
    rw [goReplace_all_two v1 "{{AI_API_KEY}}" v2 v3 apiKey (by decide) h1 h2 h3]

/-- Claim C6 witness: in the template `A{code}B{code}C` only the first
`{code}` is replaced by the patch; the second survives into the prompt. -/
theorem analyzePatch_substitution_witness :
    analyzePatch "P"
        { includedFiles := [], excludedFiles := [],
          promptTemplate := "A" ++ "{code}" ++ "B" ++ "{code}" ++ "C",
          severity := { error := [], warning := [] } }
        "R" "K" (fun _ pr _ => .error (.parse pr))
      = .error (.parse ("A" ++ "P" ++ "B" ++ "{code}" ++ "C")) :=
  (analyzePatch_substitution_spec (fun _ pr _ => .error (.parse pr)) "R" "P" "K" "q"
      "A" "B" "C" "x" "y" "z" "h" "e" "m" [] [] { error := [], warning := [] } []).1
    (by decide) (by decide)
